import Mathlib

/-!
Verification of the minpty / minconpty pseudo-terminal relay.

Shallow embedding of the two relay programs:
  * `minconpty.c` (Windows / ConPTY backend): the VT query interceptor
    `handle_vt_queries`, the two I/O threads `stdin_to_pty` and
    `pty_to_stdout`, and the control flow of `main`.
  * `minpty.c` (Unix backend): the `io_loop` poll loop and the
    exit-disposition reporting at the end of `main`.

Bytes are modelled as `Nat` (the C code reads them as `unsigned char`);
buffers and chunks are `List Nat`; each OS write is one element of a
trace list.
-/

namespace Minpty

/-! ## Escape-Query Interceptor (`handle_vt_queries`, minconpty.c:117-179) -/

/-- The three parser states `VT_NORMAL` / `VT_ESC` / `VT_CSI`. -/
inductive VTState
  | normal
  | esc
  | csi
deriving DecidableEq, Repr

/-- The static state of `handle_vt_queries`: `state`, and `csi_buf` with
`csi_len` represented as the list of bytes stored so far
(`csi_buf = csi_buf[0], ..., csi_buf[csi_len-1]`). -/
structure VTScan where
  state : VTState
  csi_buf : List Nat
deriving DecidableEq, Repr

/-- Initial interceptor state: `state = VT_NORMAL`, `csi_len = 0`. -/
def vtInit : VTScan := { state := VTState.normal, csi_buf := [] }

/-- `"\x1b[1;1R"` — cursor at row 1, col 1. -/
def resp_cursor : List Nat := [0x1B, 0x5B, 0x31, 0x3B, 0x31, 0x52]

/-- `"\x1b[0n"` — device OK. -/
def resp_status : List Nat := [0x1B, 0x5B, 0x30, 0x6E]

/-- `"\x1b[?1;2c"` — primary DA: VT100 with AVO. -/
def resp_da1 : List Nat := [0x1B, 0x5B, 0x3F, 0x31, 0x3B, 0x32, 0x63]

/-- `"\x1b[>0;0;0c"` — secondary DA. -/
def resp_da2 : List Nat :=
  [0x1B, 0x5B, 0x3E, 0x30, 0x3B, 0x30, 0x3B, 0x30, 0x63]

/-- The value of a byte buffer read as a C string: the bytes up to the
first NUL.  `handle_vt_queries` writes a NUL at `csi_buf[csi_len]` and
then compares with `strcmp`, so the comparisons below go through this. -/
def cstr : List Nat → List Nat
  | [] => []
  | c :: rest => if c = 0 then [] else c :: cstr rest

/-- The response-selection chain of minconpty.c:157-167: `strcmp` of the
NUL-terminated `csi_buf` against `"6n"`, `"5n"`, `"c"`, `"0c"`, `">c"`,
`">0c"`. -/
def csi_response (buf : List Nat) : Option (List Nat) :=
  if cstr buf = [0x36, 0x6E] then some resp_cursor
  else if cstr buf = [0x35, 0x6E] then some resp_status
  else if cstr buf = [0x63] ∨ cstr buf = [0x30, 0x63] then some resp_da1
  else if cstr buf = [0x3E, 0x63] ∨ cstr buf = [0x3E, 0x30, 0x63] then
    some resp_da2
  else none

/-- One iteration of the `for` loop of `handle_vt_queries` on byte `c`:
the next state and the list of responses written to the child-input pipe
(`WriteFile(pty_in_wr, resp, ...)`) during that iteration. -/
def vt_step (s : VTScan) (c : Nat) : VTScan × List (List Nat) :=
  match s.state with
  | VTState.normal =>
      (if c = 0x1B then { s with state := VTState.esc } else s, [])
  | VTState.esc =>
      (if c = 0x5B then { state := VTState.csi, csi_buf := [] }
       else { s with state := VTState.normal }, [])
  | VTState.csi =>
      let buf := if s.csi_buf.length < 63 then s.csi_buf ++ [c] else s.csi_buf
      if 0x40 ≤ c ∧ c ≤ 0x7E then
        ({ state := VTState.normal, csi_buf := buf },
         (csi_response buf).toList)
      else
        ({ state := VTState.csi, csi_buf := buf }, [])

/-- `handle_vt_queries(buf, len, pty_in_wr)` on one chunk: fold `vt_step`
over the bytes, collecting the responses in emission order. -/
def vt_scan (s : VTScan) : List Nat → VTScan × List (List Nat)
  | [] => (s, [])
  | c :: rest =>
      let p := vt_step s c
      let q := vt_scan p.1 rest
      (q.1, p.2 ++ q.2)

/-- Successive calls to `handle_vt_queries`, one per chunk (the `static`
state persists between calls). -/
def vt_scanChunks (s : VTScan) : List (List Nat) → VTScan × List (List Nat)
  | [] => (s, [])
  | chunk :: rest =>
      let p := vt_scan s chunk
      let q := vt_scanChunks p.1 rest
      (q.1, p.2 ++ q.2)

theorem vt_scan_append (s : VTScan) (a b : List Nat) :
    vt_scan s (a ++ b) =
      ((vt_scan (vt_scan s a).1 b).1,
       (vt_scan s a).2 ++ (vt_scan (vt_scan s a).1 b).2) := by
  induction a generalizing s with
  | nil => simp [vt_scan]
  | cons c rest ih =>
      simp [vt_scan, ih, List.append_assoc]

/-- **C2.** Feeding the interceptor the chunks of any partition, in
order, yields the same final automaton state and the same sequence of
emitted responses as feeding the concatenation in one call. -/
theorem vt_scan_chunk_invariant (s : VTScan) (chunks : List (List Nat)) :
    vt_scanChunks s chunks = vt_scan s chunks.flatten := by
  induction chunks generalizing s with
  | nil => simp [vt_scanChunks, vt_scan]
  | cons chunk rest ih =>
      simp [vt_scanChunks, ih, vt_scan_append]

/-- **C3.** From any state in which the automaton is idle (`VT_NORMAL`),
consuming `ESC [ 6 n` emits exactly one response, the fixed
cursor-position reply `ESC[1;1R` (written to the child-input pipe), and
leaves the automaton idle. -/
theorem vt_cursor_query (s : VTScan) (h : s.state = VTState.normal) :
    vt_scan s [0x1B, 0x5B, 0x36, 0x6E] =
      ({ state := VTState.normal, csi_buf := [0x36, 0x6E] }, [resp_cursor]) := by
  cases s with
  | mk st buf =>
      cases h
      simp [vt_scan, vt_step, csi_response, cstr, resp_cursor]

theorem vt_cursor_query_witness :
    vtInit.state = VTState.normal ∧
      vt_scan vtInit [0x1B, 0x5B, 0x36, 0x6E] =
        ({ state := VTState.normal, csi_buf := [0x36, 0x6E] },
         [resp_cursor]) :=
  ⟨rfl, vt_cursor_query vtInit rfl⟩

/-- **C5.** From any idle state, the complete query `ESC [ c` and the
complete query `ESC [ 0 c` each emit exactly one response, and the two
responses are the identical fixed primary device-attributes reply
`ESC[?1;2c`. -/
theorem vt_primary_da (s : VTScan) (h : s.state = VTState.normal) :
    (vt_scan s [0x1B, 0x5B, 0x63]).2 = [resp_da1] ∧
      (vt_scan s [0x1B, 0x5B, 0x30, 0x63]).2 = [resp_da1] := by
  cases s with
  | mk st buf =>
      cases h
      constructor <;>
        simp [vt_scan, vt_step, csi_response, cstr]

theorem vt_primary_da_witness :
    vtInit.state = VTState.normal ∧
      ((vt_scan vtInit [0x1B, 0x5B, 0x63]).2 = [resp_da1] ∧
        (vt_scan vtInit [0x1B, 0x5B, 0x30, 0x63]).2 = [resp_da1]) :=
  ⟨rfl, vt_primary_da vtInit rfl⟩

/-- **C6.** From any idle state, `ESC` followed by any byte other than
`[` emits no response and returns the automaton to `VT_NORMAL`, so the
next byte is read in the idle state and is not part of any sequence. -/
theorem vt_esc_non_bracket (s : VTScan) (b : Nat)
    (hs : s.state = VTState.normal) (hb : b ≠ 0x5B) :
    (vt_scan s [0x1B, b]).2 = [] ∧
      (vt_scan s [0x1B, b]).1.state = VTState.normal := by
  cases s with
  | mk st buf =>
      cases hs
      simp [vt_scan, vt_step, hb]

theorem vt_esc_non_bracket_witness :
    vtInit.state = VTState.normal ∧ (0x41 : Nat) ≠ 0x5B ∧
      ((vt_scan vtInit [0x1B, 0x41]).2 = [] ∧
        (vt_scan vtInit [0x1B, 0x41]).1.state = VTState.normal) :=
  ⟨rfl, by decide, vt_esc_non_bracket vtInit 0x41 rfl (by decide)⟩

theorem vt_trunc_len (buf : List Nat) (c : Nat) (h : buf.length ≤ 63) :
    (if buf.length < 63 then buf ++ [c] else buf).length ≤ 63 := by
  by_cases hlt : buf.length < 63
  · simp only [if_pos hlt, List.length_append, List.length_singleton]
    omega
  · simpa only [if_neg hlt] using h

theorem vt_step_buf_bound (s : VTScan) (c : Nat)
    (h : s.csi_buf.length ≤ 63) : (vt_step s c).1.csi_buf.length ≤ 63 := by
  cases s with
  | mk st buf =>
      have h2 : buf.length ≤ 63 := h
      cases st with
      | normal =>
          simp only [vt_step]
          split <;> simpa using h2
      | esc =>
          simp only [vt_step]
          split <;> simp_all
      | csi =>
          simp only [vt_step]
          split <;> simpa using vt_trunc_len buf c h2

/-- **C7.** The accumulation buffer never exceeds 63 data bytes
(`csi_buf` is `char[64]`): from any state satisfying the bound,
(a) one step keeps `csi_len ≤ 63`, so every data-byte store
`csi_buf[csi_len++]` and the terminator store `csi_buf[csi_len]` are at
indices `< 64`; (b) the bound is preserved across a whole scan; and
(c) a byte arriving while the buffer is full in the accumulating state
is dropped (truncation), leaving the buffer unchanged. -/
theorem vt_buf_never_overflows (s : VTScan) (h : s.csi_buf.length ≤ 63) :
    (∀ c, (vt_step s c).1.csi_buf.length ≤ 63 ∧
        (vt_step s c).1.csi_buf.length + 1 ≤ 64) ∧
      (∀ bs, (vt_scan s bs).1.csi_buf.length ≤ 63) ∧
      (∀ c, s.state = VTState.csi → s.csi_buf.length = 63 →
        (vt_step s c).1.csi_buf = s.csi_buf) := by
  refine ⟨fun c => ⟨vt_step_buf_bound s c h, ?_⟩, ?_, ?_⟩
  · have := vt_step_buf_bound s c h
    omega
  · intro bs
    induction bs generalizing s h with
    | nil => simpa [vt_scan] using h
    | cons c rest ih =>
        simpa [vt_scan] using ih (vt_step s c).1 (vt_step_buf_bound s c h)
  · intro c hst hlen
    cases s with
    | mk st buf =>
        cases hst
        have hlen2 : buf.length = 63 := hlen
        have hnl : ¬ buf.length < 63 := by omega
        simp only [vt_step]
        split <;> simp [hnl]

theorem vt_buf_never_overflows_witness :
    vtInit.csi_buf.length ≤ 63 ∧
      (vt_scan vtInit [0x1B, 0x5B, 0x36, 0x6E]).1.csi_buf.length ≤ 63 :=
  ⟨by decide,
   (vt_buf_never_overflows vtInit (by decide)).2.1 [0x1B, 0x5B, 0x36, 0x6E]⟩

/-! ## Inbound thread (`stdin_to_pty`, minconpty.c:197-220)

The thread reads chunks from data stdin and writes them to the pty input
pipe one byte at a time, sleeping `ESC_DELAY_MS` after every ESC byte.
A write is one trace event; the `Sleep` call is a `delay` event. -/

/-- Events produced on the child-input pipe by `stdin_to_pty`. -/
inductive InEvent
  | write (b : Nat)
  | delay
deriving DecidableEq, Repr

/-- The inner `for` loop of `stdin_to_pty` on one chunk: write byte `i`
(`ok i` tells whether `WriteFile` succeeds; a failed write breaks out of
the loop), then `Sleep(ESC_DELAY_MS)` if the byte was ESC. -/
def write_from (ok : Nat → Bool) : List Nat → Nat → List InEvent
  | [], _ => []
  | b :: rest, i =>
      if ok i then
        InEvent.write b ::
          ((if b = 0x1B then [InEvent.delay] else []) ++
            write_from ok rest (i + 1))
      else []

/-- The whole `stdin_to_pty` loop: each chunk returned by `ReadFile` from
data stdin is pushed through the inner byte loop (reads stop at EOF or
read failure, so any run of the thread produces the trace of some finite
chunk list). -/
def stdin_to_pty (chunks : List (List Nat × (Nat → Bool))) : List InEvent :=
  (chunks.map fun p => write_from p.2 p.1 0).flatten

/-- An ESC-paced trace: every `write 0x1B` event is immediately followed
by a `delay` event (in particular one exists after it). -/
def esc_paced : List InEvent → Bool
  | [] => true
  | InEvent.write b :: rest =>
      (decide (b ≠ 0x1B) || decide (rest.head? = some InEvent.delay)) &&
        esc_paced rest
  | InEvent.delay :: rest => esc_paced rest

theorem esc_paced_append (t u : List InEvent) (ht : esc_paced t = true)
    (hu : esc_paced u = true) : esc_paced (t ++ u) = true := by
  induction t with
  | nil => simpa using hu
  | cons e rest ih =>
      cases e with
      | write b =>
          simp only [esc_paced, Bool.and_eq_true, Bool.or_eq_true,
            decide_eq_true_eq] at ht
          rcases ht with ⟨hb, hrest⟩
          rcases hb with hne | hhd
          · simp [esc_paced, hne, ih hrest]
          · cases rest with
            | nil => simp at hhd
            | cons e2 rest2 =>
                have he2 : e2 = InEvent.delay := by simpa using hhd
                subst he2
                have ih2 := ih hrest
                simp only [List.cons_append, esc_paced] at ih2
                simp only [List.cons_append, esc_paced, List.head?,
                  Bool.and_eq_true]
                exact ⟨by simp, ih2⟩
      | delay =>
          simp only [esc_paced] at ht
          simpa [esc_paced] using ih ht

theorem write_from_paced (ok : Nat → Bool) (bs : List Nat) (i : Nat) :
    esc_paced (write_from ok bs i) = true := by
  induction bs generalizing i with
  | nil => simp [write_from, esc_paced]
  | cons b rest ih =>
      by_cases hok : ok i
      · by_cases hb : b = 0x1B
        · subst hb
          simp [write_from, hok, esc_paced, ih]
        · simp only [write_from, hok, if_true, hb, if_neg, List.nil_append]
          simp [esc_paced, hb, ih]
      · simp [write_from, hok, esc_paced]

/-- **C9.** In every trace of inbound writes produced by `stdin_to_pty`,
every write of an ESC byte (0x1B) is followed by a deliberate delay
(`Sleep(ESC_DELAY_MS)`) before the next write: the byte after an ESC is
never written without the pacing delay in between. -/
theorem stdin_to_pty_esc_paced (chunks : List (List Nat × (Nat → Bool))) :
    esc_paced (stdin_to_pty chunks) = true := by
  induction chunks with
  | nil => simp [stdin_to_pty, esc_paced]
  | cons chunk rest ih =>
      simpa [stdin_to_pty] using
        esc_paced_append _ _ (write_from_paced chunk.2 chunk.1 0)
          (by simpa [stdin_to_pty] using ih)

/-! ## Outbound thread (`pty_to_stdout`, minconpty.c:228-240)

Each iteration reads one chunk from the pty output pipe, runs
`handle_vt_queries` on it (responses go to the pty input pipe), then
writes the chunk itself to data stdout. -/

/-- The mutable state visible to `pty_to_stdout`: the interceptor state
and the traces of writes to data stdout and to the pty input pipe. -/
structure OutThread where
  vt : VTScan
  stdout_writes : List (List Nat)
  ptyin_writes : List (List Nat)
deriving DecidableEq, Repr

/-- One iteration of the `pty_to_stdout` loop on a chunk `bs` returned by
`ReadFile` with `n_read > 0`: `handle_vt_queries(buf, n_read, pty_in_wr)`
then `WriteFile(g_data_out, buf, n_read)`. -/
def pty_out_step (st : OutThread) (bs : List Nat) : OutThread :=
  let p := vt_scan st.vt bs
  { vt := p.1,
    stdout_writes := st.stdout_writes ++ [bs],
    ptyin_writes := st.ptyin_writes ++ p.2 }

/-- The whole `pty_to_stdout` loop over the successive chunks read from
the pty output pipe (the loop exits at the first failed/empty read). -/
def pty_to_stdout (st : OutThread) : List (List Nat) → OutThread
  | [] => st
  | bs :: rest => pty_to_stdout (pty_out_step st bs) rest

/-- Initial state of the outbound thread. -/
def outInit : OutThread :=
  { vt := vtInit, stdout_writes := [], ptyin_writes := [] }

/-- **C10.** The outbound relay writes every chunk read from the pty
output pipe to external output verbatim, unchanged and in order, and the
interceptor's synthetic responses go only to the child-input pipe: after
any run, the stdout trace is exactly the chunk list, and the child-input
trace is exactly the interceptor's response sequence for those chunks. -/
theorem pty_to_stdout_verbatim (st : OutThread) (chunks : List (List Nat)) :
    (pty_to_stdout st chunks).stdout_writes = st.stdout_writes ++ chunks ∧
      (pty_to_stdout st chunks).ptyin_writes =
        st.ptyin_writes ++ (vt_scanChunks st.vt chunks).2 := by
  induction chunks generalizing st with
  | nil => simp [pty_to_stdout, vt_scanChunks]
  | cons bs rest ih =>
      have h := ih (pty_out_step st bs)
      simp only [pty_to_stdout, vt_scanChunks]
      constructor
      · rw [h.1]
        simp [pty_out_step]
      · rw [h.2]
        simp [pty_out_step, List.append_assoc]

/-! ## Unix I/O relay loop (`io_loop`, minpty.c:129-192)

One `poll` round is modelled by the results the OS reports for that
round: the outcome of `poll` itself, the `revents` of the pty master
(`fds[0]`) and of stdin (`fds[1]`), and the data each pending `read`
would return.  A read result `some []` models `n <= 0` (EOF or error);
`some bs` with `bs` nonempty models `n > 0` returning bytes `bs`. -/

/-- What one `poll` round reports. `drain` lists the successful reads of
the drain loop run on `POLLHUP`. -/
structure PollRound where
  pollIntr : Bool
  pollErr : Bool
  masterIn : Option (List Nat)
  masterHup : Bool
  drain : List (List Nat)
  stdinIn : Option (List Nat)
  stdinHup : Bool
deriving Repr

/-- The loop-local state of `io_loop`: whether `fds[1].fd` is still a
real descriptor (it is set to -1 on stdin EOF), whether the loop is
still running (`break` clears it), and the traces of writes to stdout
and to the pty master. -/
structure LoopSt where
  stdin_fd_open : Bool
  running : Bool
  stdout_writes : List (List Nat)
  master_writes : List (List Nat)
deriving DecidableEq, Repr

/-- The `fds[1]` part of the loop body (minpty.c:174-190).  `poll` never
reports events for a negative fd, so when `stdin_fd_open` is false the
round's stdin fields are ignored. -/
def round_stdin (st : LoopSt) (ev : PollRound) : LoopSt :=
  if st.stdin_fd_open then
    let st1 :=
      match ev.stdinIn with
      | some bs =>
          if bs.length > 0 then
            { st with master_writes := st.master_writes ++ [bs] }
          else
            { st with stdin_fd_open := false }
      | none => st
    if ev.stdinHup then { st1 with stdin_fd_open := false } else st1
  else st

/-- The `fds[0]` `POLLHUP`/`POLLERR` part of the loop body
(minpty.c:163-171): drain remaining output, then `break`. -/
def round_hup (st : LoopSt) (ev : PollRound) : LoopSt :=
  if ev.masterHup then
    { st with stdout_writes := st.stdout_writes ++ ev.drain,
              running := false }
  else round_stdin st ev

/-- One full iteration of the `while` body of `io_loop`. -/
def loop_round (st : LoopSt) (ev : PollRound) : LoopSt :=
  if st.running = false then st
  else if ev.pollIntr then st
  else if ev.pollErr then { st with running := false }
  else
    match ev.masterIn with
    | some bs =>
        if bs.length > 0 then
          round_hup { st with stdout_writes := st.stdout_writes ++ [bs] } ev
        else { st with running := false }
    | none => round_hup st ev

/-- The `while (!child_exited)` loop: each round carries the value of the
`child_exited` flag sampled at the top of that iteration. -/
def io_loop (st : LoopSt) : List (Bool × PollRound) → LoopSt
  | [] => st
  | (childExited, ev) :: rest =>
      if childExited ∨ st.running = false then st
      else io_loop (loop_round st ev) rest

/-- Initial `io_loop` state: both fds active, no writes yet. -/
def loopInit : LoopSt :=
  { stdin_fd_open := true, running := true,
    stdout_writes := [], master_writes := [] }

/-- A round in which only stdin reports readable and its read returns
`n <= 0` (EOF or error). -/
def stdinEofRound : PollRound :=
  { pollIntr := false, pollErr := false, masterIn := none,
    masterHup := false, drain := [], stdinIn := some [], stdinHup := false }

/-- A round in which only the master reports readable, with read result
`bs`. -/
def masterDataRound (bs : List Nat) : PollRound :=
  { pollIntr := false, pollErr := false, masterIn := some bs,
    masterHup := false, drain := [], stdinIn := none, stdinHup := false }

theorem io_loop_master_data (st : LoopSt) (chunks : List (List Nat))
    (hrun : st.running = true) (ho : st.stdin_fd_open = false)
    (hne : ∀ bs ∈ chunks, 0 < bs.length) :
    io_loop st (chunks.map fun bs => (false, masterDataRound bs)) =
      { st with stdout_writes := st.stdout_writes ++ chunks } := by
  induction chunks generalizing st with
  | nil => simp [io_loop]
  | cons bs rest ih =>
      have hbs : 0 < bs.length := hne bs (by simp)
      have hstep : loop_round st (masterDataRound bs) =
          { st with stdout_writes := st.stdout_writes ++ [bs] } := by
        simp [loop_round, hrun, masterDataRound, round_hup, round_stdin,
          ho, hbs]
      have hrest := ih { st with stdout_writes := st.stdout_writes ++ [bs] }
        hrun ho (fun b hb => hne b (by simp [hb]))
      simp only [List.map_cons, io_loop, hrun, hstep]
      simpa [List.append_assoc, hrun] using hrest

/-- **C8.** End-of-stream (or failure) on the inbound direction is
non-fatal: a stdin-EOF round only disables the stdin fd and keeps the
loop running with all traces unchanged; once the stdin fd is disabled no
round forwards any further external input; with stdin disabled the loop
relays every further sequence of master-data rounds to stdout while
continuing to run; and the loop stops only when the master read reports
end-of-stream. -/
theorem io_loop_stdin_eof_nonfatal (st : LoopSt) (h : st.running = true) :
    (loop_round st stdinEofRound =
        if st.stdin_fd_open then { st with stdin_fd_open := false } else st) ∧
      (loop_round st stdinEofRound).running = true ∧
      (∀ ev, st.stdin_fd_open = false → round_stdin st ev = st) ∧
      (∀ chunks : List (List Nat), st.stdin_fd_open = false →
        (∀ bs ∈ chunks, 0 < bs.length) →
        io_loop st (chunks.map fun bs => (false, masterDataRound bs)) =
          { st with stdout_writes := st.stdout_writes ++ chunks }) ∧
      (loop_round st (masterDataRound []) =
        { st with running := false }) := by
  refine ⟨?_, ?_, ?_, fun chunks ho hne =>
    io_loop_master_data st chunks h ho hne, ?_⟩
  · simp only [loop_round, h, stdinEofRound]
    by_cases ho : st.stdin_fd_open
    · simp [round_hup, round_stdin, ho, h]
    · simp [round_hup, round_stdin, ho, h]
  · simp only [loop_round, h, stdinEofRound]
    by_cases ho : st.stdin_fd_open
    · simp [round_hup, round_stdin, ho, h]
    · simp [round_hup, round_stdin, ho, h]
  · intro ev ho
    simp [round_stdin, ho]
  · simp [loop_round, h, masterDataRound]

theorem io_loop_stdin_eof_nonfatal_witness :
    loopInit.running = true ∧
      ((loop_round loopInit stdinEofRound).running = true ∧
        loop_round loopInit (masterDataRound []) =
          { loopInit with running := false }) :=
  ⟨rfl,
   (io_loop_stdin_eof_nonfatal loopInit rfl).2.1,
   (io_loop_stdin_eof_nonfatal loopInit rfl).2.2.2.2⟩

/-! ## Exit disposition (minpty.c:276-288, minconpty.c:384-422)

The Unix relay inspects the `waitpid` status with the glibc
`WIFEXITED` / `WEXITSTATUS` / `WIFSIGNALED` / `WTERMSIG` macros and exits
with either the child's exit code or `128 + signal`.  The Windows relay
returns the code obtained from `GetExitCodeProcess`. -/

/-- `WIFEXITED(status)`: `((status) & 0x7f) == 0`. -/
def wifexited (s : Nat) : Bool := s % 128 == 0

/-- `WEXITSTATUS(status)`: `((status) & 0xff00) >> 8`. -/
def wexitstatus (s : Nat) : Nat := (s / 256) % 256

/-- Value of a C `(signed char)` cast. -/
def signed_char (x : Nat) : Int :=
  if x % 256 < 128 then (x % 256 : Int) else (x % 256 : Int) - 256

/-- `WIFSIGNALED(status)`:
`(((signed char) (((status) & 0x7f) + 1)) >> 1) > 0` (the arithmetic
right shift by one is floor division by two). -/
def wifsignaled (s : Nat) : Bool :=
  decide (0 < Int.fdiv (signed_char (s % 128 + 1)) 2)

/-- `WTERMSIG(status)`: `((status) & 0x7f)`. -/
def wtermsig (s : Nat) : Nat := s % 128

/-- The diagnostic line the Unix relay prints to stderr before exiting. -/
inductive Diag
  | exitedWith (code : Nat)
  | killedBySignal (sig : Nat)
deriving DecidableEq, Repr

/-- The tail of the Unix `main` (minpty.c:276-288): report how the child
exited and choose the relay's own exit code. -/
def minpty_report (status : Nat) : Option Diag × Nat :=
  if wifexited status then
    (some (Diag.exitedWith (wexitstatus status)), wexitstatus status)
  else if wifsignaled status then
    (some (Diag.killedBySignal (wtermsig status)), 128 + wtermsig status)
  else (none, 0)

/-- Outcomes of the fallible OS calls made by the Windows `main`, plus
the child exit code `GetExitCodeProcess` reports when it succeeds. -/
structure WinEnv where
  pipes_ok : Bool
  create_pty_ok : Bool
  attr_alloc_ok : Bool
  attr_init_ok : Bool
  attr_update_ok : Bool
  cmd_alloc_ok : Bool
  create_process_ok : Bool
  get_exit_ok : Bool
  child_exit_code : Nat
deriving DecidableEq, Repr

/-- The stderr diagnostics the Windows `main` can print. -/
inductive WinDiag
  | usage
  | pipesFailed
  | createPtyFailed
  | attrInitFailed
  | attrUpdateFailed
  | createProcessFailed
  | childExited (code : Nat)
deriving DecidableEq, Repr

/-- Observable events of the Windows `main`, in program order: stderr
diagnostics and the `ClosePseudoConsole` release of the backend. -/
inductive WinEvent
  | diag (d : WinDiag)
  | closePseudoConsole
deriving DecidableEq, Repr

/-- Control flow of the Windows `main` (minconpty.c:243-423), as the
sequence of diagnostics / backend-release events and the returned exit
code, driven by which OS calls succeed.  Note minconpty.c:359-365: when
`CreateProcessA` fails, the failure diagnostic is printed and then the
pseudo-console is closed before returning 1; on the success path the
pseudo-console is closed (line 393) before the exit report (line 420). -/
def minconpty_main (argc : Nat) (env : WinEnv) : List WinEvent × Nat :=
  if argc < 2 then ([WinEvent.diag WinDiag.usage], 1)
  else if env.pipes_ok = false then
    ([WinEvent.diag WinDiag.pipesFailed], 1)
  else if env.create_pty_ok = false then
    ([WinEvent.diag WinDiag.createPtyFailed], 1)
  else if env.attr_alloc_ok = false then ([], 1)
  else if env.attr_init_ok = false then
    ([WinEvent.diag WinDiag.attrInitFailed], 1)
  else if env.attr_update_ok = false then
    ([WinEvent.diag WinDiag.attrUpdateFailed], 1)
  else if env.cmd_alloc_ok = false then ([], 1)
  else if env.create_process_ok = false then
    ([WinEvent.diag WinDiag.createProcessFailed,
      WinEvent.closePseudoConsole], 1)
  else
    let code := if env.get_exit_ok then env.child_exit_code else 1
    ([WinEvent.closePseudoConsole,
      WinEvent.diag (WinDiag.childExited code)], code)

/-- A run of the Windows relay in which every OS call succeeds and the
child exits with code 7. -/
def winEnvOk : WinEnv :=
  { pipes_ok := true, create_pty_ok := true, attr_alloc_ok := true,
    attr_init_ok := true, attr_update_ok := true, cmd_alloc_ok := true,
    create_process_ok := true, get_exit_ok := true, child_exit_code := 7 }

/-- **C1.** When the child terminates: on normal exit (Unix `WIFEXITED`,
or the Windows success path) the relay's own exit code is the child's
exit code; on termination by signal the relay exits with `128 + signal`
after printing a diagnostic naming the signal. -/
theorem child_exit_disposition (status argc : Nat) (env : WinEnv)
    (hargc : 2 ≤ argc)
    (henv : env.pipes_ok = true ∧ env.create_pty_ok = true ∧
      env.attr_alloc_ok = true ∧ env.attr_init_ok = true ∧
      env.attr_update_ok = true ∧ env.cmd_alloc_ok = true ∧
      env.create_process_ok = true ∧ env.get_exit_ok = true) :
    (wifexited status = true →
        minpty_report status =
          (some (Diag.exitedWith (wexitstatus status)), wexitstatus status)) ∧
      (wifsignaled status = true →
        minpty_report status =
          (some (Diag.killedBySignal (wtermsig status)),
           128 + wtermsig status)) ∧
      (minconpty_main argc env).2 = env.child_exit_code := by
  obtain ⟨h1, h2, h3, h4, h5, h6, h7, h8⟩ := henv
  have hargc2 : ¬ argc < 2 := by omega
  refine ⟨fun hex => by simp [minpty_report, hex], fun hsig => ?_, ?_⟩
  · have hex : wifexited status = false := by
      by_cases h0 : status % 128 = 0
      · exfalso
        have hf : wifsignaled status = false := by
          unfold wifsignaled
          rw [h0]
          decide
        rw [hf] at hsig
        exact Bool.false_ne_true hsig
      · simp [wifexited, h0]
    simp [minpty_report, hex, hsig]
  · simp [minconpty_main, hargc2, h1, h2, h3, h4, h5, h6, h7, h8]

theorem child_exit_disposition_witness :
    (2 ≤ 2) ∧
      minpty_report 512 = (some (Diag.exitedWith 2), 2) ∧
      minpty_report 9 = (some (Diag.killedBySignal 9), 137) ∧
      (minconpty_main 2 winEnvOk).2 = 7 := by
  have ha := child_exit_disposition 512 2 winEnvOk (by decide)
    ⟨rfl, rfl, rfl, rfl, rfl, rfl, rfl, rfl⟩
  have hb := child_exit_disposition 9 2 winEnvOk (by decide)
    ⟨rfl, rfl, rfl, rfl, rfl, rfl, rfl, rfl⟩
  refine ⟨by decide, ?_, ?_, ha.2.2⟩
  · simpa [wexitstatus] using ha.1 (by decide)
  · simpa [wtermsig] using hb.2.1 (by decide)

/-! ## Launch failure (minpty.c:234-242, minconpty.c:359-365) -/

/-- minpty.c:239-241: on `execvp` failure (nonexistent command) the child
prints `perror("execvp")` and does `_exit(127)`; the parent then reaps a
normal-exit wait status carrying code 127, i.e. `127 << 8`. -/
def minpty_exec_fail_status : Nat := 127 * 256

/-- **C4, counterexample.** On the Unix backend a nonexistent command
does not make the relay exit with code 1: the child's `execvp` failure
surfaces as `_exit(127)`, the relay reports a normal child exit with
status 127 and itself exits 127, not 1. -/
theorem launch_error_exit_cex :
    (minpty_report minpty_exec_fail_status).2 = 127 ∧ (127 : Nat) ≠ 1 := by
  decide

/-- **C4 (amended).** On the interpreting (ConPTY) backend, a failed
`CreateProcessA` yields the launch-failure diagnostic, releases the
pseudo-console before returning (no leaked backend), and exits 1.  On
the transparent (Unix) backend, the failed `execvp` is reported by the
child exiting 127, and the relay relays that code: it reports a normal
child exit with status 127 and exits 127. -/
theorem launch_error_handling (argc : Nat) (env : WinEnv)
    (hargc : 2 ≤ argc)
    (henv : env.pipes_ok = true ∧ env.create_pty_ok = true ∧
      env.attr_alloc_ok = true ∧ env.attr_init_ok = true ∧
      env.attr_update_ok = true ∧ env.cmd_alloc_ok = true)
    (hcp : env.create_process_ok = false) :
    minconpty_main argc env =
      ([WinEvent.diag WinDiag.createProcessFailed,
        WinEvent.closePseudoConsole], 1) ∧
      minpty_report minpty_exec_fail_status =
        (some (Diag.exitedWith 127), 127) := by
  obtain ⟨h1, h2, h3, h4, h5, h6⟩ := henv
  have hargc2 : ¬ argc < 2 := by omega
  constructor
  · simp [minconpty_main, hargc2, h1, h2, h3, h4, h5, h6, hcp]
  · decide

/-- A run of the Windows relay in which `CreateProcessA` fails and every
earlier OS call succeeds. -/
def winEnvLaunchFail : WinEnv :=
  { pipes_ok := true, create_pty_ok := true, attr_alloc_ok := true,
    attr_init_ok := true, attr_update_ok := true, cmd_alloc_ok := true,
    create_process_ok := false, get_exit_ok := true, child_exit_code := 0 }

theorem launch_error_handling_witness :
    (2 ≤ 2) ∧
      minconpty_main 2 winEnvLaunchFail =
        ([WinEvent.diag WinDiag.createProcessFailed,
          WinEvent.closePseudoConsole], 1) :=
  ⟨by decide,
   (launch_error_handling 2 winEnvLaunchFail (by decide)
     ⟨rfl, rfl, rfl, rfl, rfl, rfl⟩ rfl).1⟩

end Minpty
